import Mathlib

/-!
Shallow embedding of the stock-analysis repository.

Numbers are modelled as rationals (`ℚ`); a JavaScript value that may be
`null`/`undefined` is modelled as an `Option`.  The per-symbol metric
computation embeds `getStockDataAPI` (src/API/server.js), the request
handler embeds the `POST /api/analyze` route, and the table ordering
embeds `sortData` (src/Static/VL-ratio-comparison.js).
-/

namespace StockAnalysis

/-- JavaScript `x || d` for a possibly-absent number `x`: a falsy value
(`null`/`undefined`/`0`) yields the default `d`. -/
def jsNumOr (x : Option ℚ) (d : ℚ) : ℚ :=
  match x with
  | some v => if v = 0 then d else v
  | none => d

/-- JavaScript `a || b` where both operands are possibly-absent numbers. -/
def jsOrOpt (a b : Option ℚ) : Option ℚ :=
  match a with
  | some v => if v = 0 then b else some v
  | none => b

/-- Numeric coercion of a possibly-absent value as JavaScript arithmetic
uses it (`null` coerces to `0`). -/
def jsToNum (x : Option ℚ) : ℚ := x.getD 0

/-- JavaScript `Math.round`: round half towards positive infinity. -/
def jsRound (x : ℚ) : ℤ := ⌊x + 1 / 2⌋

/-- JavaScript `parseFloat(x.toFixed(d))`: round to `d` decimal places,
ties towards the larger value, as the ECMAScript `toFixed` spec does. -/
def jsToFixed (d : ℕ) (x : ℚ) : ℚ := (jsRound (x * 10 ^ d) : ℚ) / 10 ^ d

/-! ### Volume metrics (`getStockDataAPI`, src/API/server.js lines 100-107) -/

/-- `const start = Math.max(0, targetIndex - 9)` — truncated subtraction on `ℕ`
is exactly `max 0 (targetIndex - 9)`. -/
def windowStart (targetIndex : ℕ) : ℕ := targetIndex - 9

/-- `volumes.slice(start, targetIndex + 1).filter(v => v !== null)`:
the window of the series, with `null` entries removed. -/
def volumeSlice (volumes : List (Option ℚ)) (targetIndex : ℕ) : List ℚ :=
  ((volumes.take (targetIndex + 1)).drop (windowStart targetIndex)).filterMap id

/-- `volumeSlice.length > 0 ? volumeSlice.reduce((sum, vol) => sum + vol, 0) / volumeSlice.length : 0`. -/
def avgVolume (volumes : List (Option ℚ)) (targetIndex : ℕ) : ℚ :=
  let s := volumeSlice volumes targetIndex
  if 0 < s.length then s.sum / s.length else 0

/-- `const currentVolume = volumes[targetIndex] || 0`. -/
def currentVolume (volumes : List (Option ℚ)) (targetIndex : ℕ) : ℚ :=
  jsNumOr (volumes[targetIndex]?).join 0

/-- `const vlRatio = avgVolume > 0 ? currentVolume / avgVolume : 0`. -/
def vlRatio (volumes : List (Option ℚ)) (targetIndex : ℕ) : ℚ :=
  if 0 < avgVolume volumes targetIndex then
    currentVolume volumes targetIndex / avgVolume volumes targetIndex
  else 0

/-! ### Price change (`getStockDataAPI`, src/API/server.js lines 109-112, 120) -/

/-- `const currentPrice = closes[targetIndex]` (absent or `null` become `none`). -/
def currentPrice (closes : List (Option ℚ)) (targetIndex : ℕ) : Option ℚ :=
  (closes[targetIndex]?).join

/-- `const previousPrice = closes[targetIndex - 1] || currentPrice`; at
`targetIndex = 0` the JavaScript index `-1` reads `undefined`. -/
def previousPrice (closes : List (Option ℚ)) (targetIndex : ℕ) : Option ℚ :=
  jsOrOpt (if targetIndex = 0 then none else (closes[targetIndex - 1]?).join)
    (currentPrice closes targetIndex)

/-- `previousPrice > 0 ? ((currentPrice - previousPrice) / previousPrice) * 100 : 0`,
before the 2-decimal rounding applied on return. -/
def priceChangeRaw (closes : List (Option ℚ)) (targetIndex : ℕ) : ℚ :=
  if 0 < jsToNum (previousPrice closes targetIndex) then
    ((jsToNum (currentPrice closes targetIndex) -
        jsToNum (previousPrice closes targetIndex)) /
      jsToNum (previousPrice closes targetIndex)) * 100
  else 0

/-- `priceChange: parseFloat(priceChange.toFixed(2))`. -/
def priceChange (closes : List (Option ℚ)) (targetIndex : ℕ) : ℚ :=
  jsToFixed 2 (priceChangeRaw closes targetIndex)

example : avgVolume [some 1000, some 3000] 1 = 2000 := by
  norm_num [avgVolume, volumeSlice, windowStart, List.filterMap_cons]
example : vlRatio [some 1000, some 3000] 1 = 3 / 2 := by
  norm_num [vlRatio, avgVolume, volumeSlice, windowStart, currentVolume, jsNumOr,
    List.filterMap_cons]
example : priceChangeRaw [some 100, some 110] 1 = 10 := by
  norm_num [priceChangeRaw, previousPrice, currentPrice, jsToNum, jsOrOpt]

/-! ### Per-symbol fetch result (the object returned by `getStockDataAPI`) -/

/-- The record returned by `getStockDataAPI` on success: unrounded `avgVolume`
and `vlRatio`, `priceChange` already rounded to 2 decimals, `price` possibly
`null`. -/
structure StockData where
  symbol : String
  currentVolume : ℚ
  avgVolume : ℚ
  vlRatio : ℚ
  price : Option ℚ
  priceChange : ℚ
  date : String
deriving DecidableEq

/-- Assembly of the success return value of `getStockDataAPI` from a resolved
target index (the date string is the formatted timestamp, kept abstract). -/
def getStockDataAPI (symbol date : String) (volumes closes : List (Option ℚ))
    (targetIndex : ℕ) : StockData :=
  { symbol := symbol
    currentVolume := currentVolume volumes targetIndex
    avgVolume := avgVolume volumes targetIndex
    vlRatio := vlRatio volumes targetIndex
    price := currentPrice closes targetIndex
    priceChange := priceChange closes targetIndex
    date := date }

/-! ### The `POST /api/analyze` handler (src/API/server.js lines 143-220) -/

/-- `const benchmarks = ['QQQ', 'SPY', 'IWM']`. -/
def benchmarks : List String := ["QQQ", "SPY", "IWM"]

/-- The request's `symbols` field: absent, present but not an array, or an
array of strings. -/
inductive SymbolsField where
  | missing
  | nonArray
  | array (xs : List String)

/-- `[...new Set(l)]`: de-duplication keeping the first occurrence of each
element, as a JavaScript `Set` does. -/
def jsSetDedupAux (seen : List String) : List String → List String
  | [] => []
  | a :: l =>
    if seen.contains a then jsSetDedupAux seen l
    else a :: jsSetDedupAux (a :: seen) l

/-- `const allSymbols = [...new Set([...benchmarks, ...symbols])]` uses this
on `benchmarks ++ symbols`. -/
def jsSetDedup (l : List String) : List String := jsSetDedupAux [] l

/-- Validation stage of the handler: `none` models the early
`400 { error: 'Symbols array is required' }` return (no fetch is performed);
`some l` is the list `allSymbols` whose elements are then fetched.
The guard in the source is `if (!symbols || !Array.isArray(symbols))`:
an array is always truthy and always an array, so every array — the empty
array included — passes validation. -/
def analyzePlan : SymbolsField → Option (List String)
  | .array xs => some (jsSetDedup (benchmarks ++ xs))
  | _ => none

/-- `const validResults = results.filter(result => result !== null)`. -/
def validResults (results : List (Option StockData)) : List StockData :=
  results.filterMap id

/-- `validResults.find(r => r.symbol === sym)`. -/
def findSymbol (rs : List StockData) (sym : String) : Option StockData :=
  rs.find? (fun r => r.symbol == sym)

/-- The `status` literals `'stronger'` and `'weaker'`. -/
inductive Status where
  | stronger
  | weaker
deriving DecidableEq

/-- One `{ ratio, status }` comparison object. -/
structure Comparison where
  ratio : ℚ
  status : Status
deriving DecidableEq

/-- The `comparisons` object of an analysis row. -/
structure Comparisons where
  vs_QQQ : Comparison
  vs_SPY : Comparison
  vs_IWM : Comparison
deriving DecidableEq

/-- One element of the handler's `analysisResults` array, which is also the
shape of a row consumed by the frontend table. -/
structure Row where
  symbol : String
  vlRatio : ℚ
  currentVolume : ℚ
  avgVolume : ℤ
  price : Option ℚ
  priceChange : ℚ
  date : String
  comparisons : Comparisons
deriving DecidableEq

/-- `bench && bench.priceChange !== 0 ? stock.priceChange / bench.priceChange : 1`,
the unrounded comparison value of a stock against one benchmark. -/
def compareVal (bench : Option StockData) (stock : StockData) : ℚ :=
  match bench with
  | some b => if b.priceChange ≠ 0 then stock.priceChange / b.priceChange else 1
  | none => 1

/-- `{ ratio: parseFloat(v.toFixed(3)), status: v > 1 ? 'stronger' : 'weaker' }`
for the comparison value `v`. -/
def mkComparison (bench : Option StockData) (stock : StockData) : Comparison :=
  { ratio := jsToFixed 3 (compareVal bench stock)
    status := if 1 < compareVal bench stock then .stronger else .weaker }

/-- The object literal built for each `stock` inside `validResults.map(...)`. -/
def mkAnalysisRow (qqq spy iwm : Option StockData) (stock : StockData) : Row :=
  { symbol := stock.symbol
    vlRatio := jsToFixed 3 stock.vlRatio
    currentVolume := stock.currentVolume
    avgVolume := jsRound stock.avgVolume
    price := stock.price
    priceChange := stock.priceChange
    date := stock.date
    comparisons :=
      { vs_QQQ := mkComparison qqq stock
        vs_SPY := mkComparison spy stock
        vs_IWM := mkComparison iwm stock } }

/-- The handler's `analysisResults` array: find the three benchmark results
among `validResults`, then map every valid result to a row. -/
def analyzeRows (results : List (Option StockData)) : List Row :=
  let valid := validResults results
  valid.map
    (mkAnalysisRow (findSymbol valid "QQQ") (findSymbol valid "SPY")
      (findSymbol valid "IWM"))

/-! ### The frontend sort (`sortData`, src/Static/VL-ratio-comparison.js
lines 342-406) -/

/-- The eight sortable columns, in the header order of `sortTable`. -/
inductive Column where
  | symbol
  | priceChange
  | vlRatio
  | vsQQQ
  | vsSPY
  | vsIWM
  | price
  | volume

/-- The toggled sort direction. -/
inductive Direction where
  | asc
  | desc

/-- JavaScript `x || 0` for a number that is always present. -/
def jsOrZero (x : ℚ) : ℚ := if x = 0 then 0 else x

/-- The `aValue`/`bValue` extracted by the `switch (column)` block. Only the
`symbol` column yields a string (compared with `localeCompare`, modelled as
the lexicographic order); every other column yields a number. -/
def sortKey (col : Column) (r : Row) : String ⊕ ℚ :=
  match col with
  | .symbol => .inl r.symbol
  | .priceChange => .inr (jsOrZero r.priceChange)
  | .vlRatio => .inr r.vlRatio
  | .vsQQQ => .inr r.comparisons.vs_QQQ.ratio
  | .vsSPY => .inr r.comparisons.vs_SPY.ratio
  | .vsIWM => .inr r.comparisons.vs_IWM.ratio
  | .price => .inr (jsNumOr r.price 0)
  | .volume => .inr r.currentVolume

/-- `a` may stay before `b` under the comparator, i.e. the comparator value
is `≤ 0`.  String keys compare with the string order, numeric keys with the
numeric order; the two mixed cases never arise for a fixed column and are
fixed arbitrarily so that the relation stays total. -/
def skLe : String ⊕ ℚ → String ⊕ ℚ → Prop
  | .inl s, .inl t => s ≤ t
  | .inr x, .inr y => x ≤ y
  | .inl _, .inr _ => True
  | .inr _, .inl _ => False

instance : DecidableRel skLe := fun a b =>
  match a, b with
  | .inl s, .inl t => inferInstanceAs (Decidable (s ≤ t))
  | .inr x, .inr y => inferInstanceAs (Decidable (x ≤ y))
  | .inl _, .inr _ => inferInstanceAs (Decidable True)
  | .inr _, .inl _ => inferInstanceAs (Decidable False)

/-- The comparator passed to `sort` on the regular rows: ascending compares
`aValue` against `bValue`, descending swaps them. -/
def rowLe (col : Column) (dir : Direction) (a b : Row) : Prop :=
  match dir with
  | .asc => skLe (sortKey col a) (sortKey col b)
  | .desc => skLe (sortKey col b) (sortKey col a)

instance (col : Column) (dir : Direction) : DecidableRel (rowLe col dir) :=
  fun a b =>
    match dir with
    | .asc => inferInstanceAs (Decidable (skLe (sortKey col a) (sortKey col b)))
    | .desc => inferInstanceAs (Decidable (skLe (sortKey col b) (sortKey col a)))

/-- `this.benchmarks.includes(s)`. -/
def isBenchmarkSym (s : String) : Bool := benchmarks.contains s

/-- JavaScript `Array.prototype.indexOf`: position of the first occurrence,
`-1` when absent. -/
def jsIndexOf (l : List String) (s : String) : ℤ :=
  if l.contains s then (l.indexOf s : ℤ) else -1

/-- The comparator used on the benchmark rows:
`this.benchmarks.indexOf(a.symbol) - this.benchmarks.indexOf(b.symbol)`. -/
def benchLe (a b : Row) : Prop :=
  jsIndexOf benchmarks a.symbol ≤ jsIndexOf benchmarks b.symbol

instance : DecidableRel benchLe := fun a b =>
  inferInstanceAs
    (Decidable (jsIndexOf benchmarks a.symbol ≤ jsIndexOf benchmarks b.symbol))

/-- `sortData(data, column, direction)`: split off the benchmark rows, order
them by their fixed benchmark position, sort the regular rows with the
column comparator, and concatenate benchmarks first.  JavaScript `sort` is
stable (and total on the comparators used here), which `insertionSort`
models. -/
def sortData (data : List Row) (col : Column) (dir : Direction) : List Row :=
  let benchRows := data.filter (fun s => isBenchmarkSym s.symbol)
  let regularRows := data.filter (fun s => ! isBenchmarkSym s.symbol)
  List.insertionSort benchLe benchRows ++
    List.insertionSort (rowLe col dir) regularRows

/-! ### General lemmas -/

/-- Taking `n` elements after dropping `s` is reading the indices
`s, s+1, …, s+n-1`, with out-of-range reads contributing nothing. -/
theorem drop_take_eq_filterMap_range {α : Type} (l : List α) :
    ∀ (n s : ℕ), (l.drop s).take n = (List.range' s n).filterMap (fun j => l[j]?)
  | 0, s => by simp
  | n + 1, s => by
    rw [List.range'_succ]
    by_cases h : s < l.length
    · rw [List.filterMap_cons_some (List.getElem?_eq_getElem h),
        List.drop_eq_getElem_cons h, List.take_succ_cons,
        drop_take_eq_filterMap_range l n (s + 1)]
    · have hnone : l[s]? = none := List.getElem?_eq_none (le_of_not_lt h)
      have hdrop : l.drop s = [] := List.drop_eq_nil_of_le (le_of_not_lt h)
      have hdrop1 : l.drop (s + 1) = [] :=
        List.drop_eq_nil_of_le (Nat.le_succ_of_le (le_of_not_lt h))
      rw [List.filterMap_cons_none hnone, hdrop, List.take_nil,
        ← drop_take_eq_filterMap_range l n (s + 1), hdrop1, List.take_nil]

/-- Rounding the value `1` at any number of decimal places gives back `1`. -/
theorem jsToFixed_one (d : ℕ) : jsToFixed d 1 = 1 := by
  unfold jsToFixed jsRound
  have h10 : ((10 : ℚ) ^ d) = ((10 ^ d : ℤ) : ℚ) := by push_cast; ring
  have hhalf : ⌊(1 : ℚ) / 2⌋ = 0 := by
    rw [Int.floor_eq_zero_iff]
    constructor <;> norm_num
  rw [one_mul, h10, add_comm, Int.floor_add_int, hhalf, zero_add]
  have : ((10 ^ d : ℤ) : ℚ) ≠ 0 := by positivity
  field_simp

/-! ### Claim C1: the average volume is the mean over the 10-session window -/

/-- Modelled from the spec's wording for comparison with `avgVolume`: the
arithmetic mean of the non-null volumes at indices `[max 0 (i - 9), i]`
(on `ℕ`, `i - 9` is that max), or `0` when every volume there is null. -/
def avgVolumeWindowMean (volumes : List (Option ℚ)) (i : ℕ) : ℚ :=
  let vals :=
    (List.range' (i - 9) (i + 1 - (i - 9))).filterMap fun j => (volumes[j]?).join
  if 0 < vals.length then vals.sum / vals.length else 0

/-- Claim C1: for every series and target index, `avgVolume` is the
arithmetic mean of the non-null volumes in the window of indices
`[max 0 (i-9), i]` (`0` when all are null), and that window holds at most
10 points. -/
theorem avgVolume_eq_window_mean (volumes : List (Option ℚ)) (i : ℕ) :
    avgVolume volumes i = avgVolumeWindowMean volumes i ∧
      (List.range' (i - 9) (i + 1 - (i - 9))).length ≤ 10 := by
  constructor
  · have hslice : volumeSlice volumes i =
        (List.range' (i - 9) (i + 1 - (i - 9))).filterMap fun j =>
          (volumes[j]?).join := by
      unfold volumeSlice windowStart
      rw [List.drop_take, drop_take_eq_filterMap_range, List.filterMap_filterMap]
      rfl
    unfold avgVolume avgVolumeWindowMean
    rw [hslice]
  · rw [List.length_range']
    omega

/-! ### Claim C6: the price-change percentage -/

/-- When the fallback `closes[targetIndex - 1] || currentPrice` resolves to
the current price itself, the percentage change is `0`. -/
theorem priceChangeRaw_eq_zero_of_prev_eq_current (closes : List (Option ℚ))
    (ti : ℕ) (h : previousPrice closes ti = currentPrice closes ti) :
    priceChangeRaw closes ti = 0 := by
  unfold priceChangeRaw
  rw [h]
  rcases hc : currentPrice closes ti with _ | c
  · simp [jsToNum]
  · by_cases hpos : 0 < c
    · simp [jsToNum, hpos]
    · simp [jsToNum, hpos]

/-- Claim C6: `priceChangeRaw` is `((current - previous) / previous) * 100`
with `previous` the close at `targetIndex - 1` when that close is present
and positive, and is `0` when `targetIndex = 0` or the previous close is
absent or `0`. -/
theorem priceChange_formula (closes : List (Option ℚ)) (ti : ℕ) :
    (∀ c p : ℚ, ti ≠ 0 → currentPrice closes ti = some c →
        (closes[ti - 1]?).join = some p → 0 < p →
        priceChangeRaw closes ti = ((c - p) / p) * 100) ∧
    (ti = 0 → priceChangeRaw closes ti = 0) ∧
    (ti ≠ 0 → (closes[ti - 1]?).join = none → priceChangeRaw closes ti = 0) ∧
    (ti ≠ 0 → (closes[ti - 1]?).join = some 0 → priceChangeRaw closes ti = 0) := by
  refine ⟨?_, ?_, ?_, ?_⟩
  · intro c p hti hc hp hpos
    have hprev : previousPrice closes ti = some p := by
      unfold previousPrice
      rw [if_neg hti, hp]
      show (if p = 0 then currentPrice closes ti else some p) = some p
      rw [if_neg hpos.ne']
    unfold priceChangeRaw
    rw [hprev, hc]
    simp [jsToNum, hpos]
  · intro h0
    apply priceChangeRaw_eq_zero_of_prev_eq_current
    unfold previousPrice
    rw [if_pos h0]
    rfl
  · intro hti hnone
    apply priceChangeRaw_eq_zero_of_prev_eq_current
    unfold previousPrice
    rw [if_neg hti, hnone]
    rfl
  · intro hti h0
    apply priceChangeRaw_eq_zero_of_prev_eq_current
    unfold previousPrice
    rw [if_neg hti, h0]
    show (if (0 : ℚ) = 0 then currentPrice closes ti else some 0) =
      currentPrice closes ti
    rw [if_pos rfl]

/-- Witness for C6: on the spec's two-point scenario series the formula
instance of the theorem evaluates the target index `1`. -/
theorem priceChange_formula_witness :
    priceChangeRaw [some 100, some 110] 1 = ((110 - 100) / 100) * 100 :=
  (priceChange_formula [some 100, some 110] 1).1 110 100 (by norm_num) rfl rfl
    (by norm_num)

/-! ### Claim C7: the volume ratio is a well-defined non-negative number -/

/-- Claim C7: with non-negative volumes, `vlRatio` is non-negative (its
division happens only under the `avgVolume > 0` guard, so it is a total
rational expression — no `NaN`/`Infinity` case exists), and a zero average
yields ratio `0` instead of a division. -/
theorem vlRatio_nonneg (volumes : List (Option ℚ)) (ti : ℕ)
    (hnn : ∀ x : ℚ, some x ∈ volumes → 0 ≤ x) :
    0 ≤ vlRatio volumes ti ∧
      (avgVolume volumes ti = 0 → vlRatio volumes ti = 0) := by
  constructor
  · unfold vlRatio
    split
    case isTrue hpos =>
      refine div_nonneg ?_ (le_of_lt hpos)
      unfold currentVolume jsNumOr
      rcases hj : (volumes[ti]?).join with _ | v
      · simp
      · have hx : volumes[ti]? = some (some v) := Option.join_eq_some.mp hj
        have hv : 0 ≤ v := hnn v (List.getElem?_mem hx)
        by_cases h0 : v = 0
        · simp [h0]
        · simp [h0, hv]
    case isFalse => exact le_refl 0
  · intro h0
    unfold vlRatio
    rw [h0]
    simp

/-- Witness for C7 at the spec's two-point scenario series. -/
theorem vlRatio_nonneg_witness :
    0 ≤ vlRatio [some 1000, some 3000] 1 ∧
      (avgVolume [some 1000, some 3000] 1 = 0 →
        vlRatio [some 1000, some 3000] 1 = 0) :=
  vlRatio_nonneg [some 1000, some 3000] 1 (by
    intro x hx
    simp only [List.mem_cons, List.not_mem_nil, or_false, Option.some.injEq] at hx
    rcases hx with h | h <;> subst h <;> norm_num)

/-! ### Shared helper lemmas and sample data for the handler claims -/

/-- The emitted `status` is `'stronger'` exactly when the unrounded
comparison value is strictly greater than `1`. -/
theorem mkComparison_status_stronger_iff (bench : Option StockData)
    (stock : StockData) :
    (mkComparison bench stock).status = .stronger ↔
      1 < compareVal bench stock := by
  unfold mkComparison
  by_cases h : 1 < compareVal bench stock
  · simp [h]
  · simp [h]

/-- A benchmark compared against itself always yields the value `1`:
either its change is `0` and the neutral default fires, or the division is
`x / x` with `x ≠ 0`. -/
theorem compareVal_self (b : StockData) : compareVal (some b) b = 1 := by
  unfold compareVal
  by_cases h : b.priceChange = 0
  · simp [h]
  · simp [h, div_self]

/-- A sample benchmark result whose price change is `0`. -/
def sampleBench : StockData :=
  { symbol := "QQQ", currentVolume := 1000, avgVolume := 800, vlRatio := 5 / 4,
    price := some 400, priceChange := 0, date := "Mon" }

/-- A sample benchmark result whose price change is nonzero. -/
def sampleBenchUp : StockData :=
  { symbol := "SPY", currentVolume := 900, avgVolume := 450, vlRatio := 2,
    price := some 500, priceChange := 2, date := "Mon" }

/-- A sample non-benchmark result. -/
def sampleStock : StockData :=
  { symbol := "ABC", currentVolume := 3000, avgVolume := 2000, vlRatio := 3 / 2,
    price := some 10, priceChange := 5, date := "Mon" }

/-! ### Claim C5: the comparison ratio and status rule -/

/-- Claim C5: a benchmark with zero price change gives every symbol the
comparison value `1`, emitted ratio `1` and status `'weaker'`; in general
the status is `'stronger'` exactly when the comparison value exceeds `1`,
and `'weaker'` otherwise. -/
theorem comparison_status_rule (b stock : StockData) (bench : Option StockData) :
    (b.priceChange = 0 →
      compareVal (some b) stock = 1 ∧
        (mkComparison (some b) stock).ratio = 1 ∧
        (mkComparison (some b) stock).status = .weaker) ∧
    ((mkComparison bench stock).status = .stronger ↔
      1 < compareVal bench stock) ∧
    ((mkComparison bench stock).status = .stronger ∨
      (mkComparison bench stock).status = .weaker) := by
  refine ⟨?_, mkComparison_status_stronger_iff bench stock, ?_⟩
  · intro h0
    have hcv : compareVal (some b) stock = 1 := by
      unfold compareVal
      simp [h0]
    refine ⟨hcv, ?_, ?_⟩
    · show jsToFixed 3 (compareVal (some b) stock) = 1
      rw [hcv, jsToFixed_one]
    · show (if 1 < compareVal (some b) stock then Status.stronger
        else Status.weaker) = Status.weaker
      rw [hcv]
      simp
  · unfold mkComparison
    by_cases h : 1 < compareVal bench stock
    · simp [h]
    · simp [h]

/-- Witness for C5: `sampleBench` has price change `0`, so `sampleStock`
compares to it with ratio `1` and status `'weaker'`. -/
theorem comparison_status_rule_witness :
    compareVal (some sampleBench) sampleStock = 1 ∧
      (mkComparison (some sampleBench) sampleStock).ratio = 1 ∧
      (mkComparison (some sampleBench) sampleStock).status = .weaker :=
  (comparison_status_rule sampleBench sampleStock none).1 rfl

/-! ### Claim C9: emitted fields are rounded, status is not -/

/-- Claim C9: the emitted row's `vlRatio` is the internal ratio rounded to
3 decimals, its `avgVolume` is the internal mean rounded to an integer,
each comparison `ratio` is the comparison value rounded to 3 decimals, and
each `status` is decided by the unrounded comparison value. -/
theorem analyzeRows_rounding (results : List (Option StockData)) (i : ℕ)
    (stock : StockData) (row : Row)
    (hs : (validResults results)[i]? = some stock)
    (hr : (analyzeRows results)[i]? = some row) :
    row.vlRatio = jsToFixed 3 stock.vlRatio ∧
    row.avgVolume = jsRound stock.avgVolume ∧
    row.comparisons.vs_QQQ.ratio =
      jsToFixed 3 (compareVal (findSymbol (validResults results) "QQQ") stock) ∧
    (row.comparisons.vs_QQQ.status = .stronger ↔
      1 < compareVal (findSymbol (validResults results) "QQQ") stock) ∧
    row.comparisons.vs_SPY.ratio =
      jsToFixed 3 (compareVal (findSymbol (validResults results) "SPY") stock) ∧
    (row.comparisons.vs_SPY.status = .stronger ↔
      1 < compareVal (findSymbol (validResults results) "SPY") stock) ∧
    row.comparisons.vs_IWM.ratio =
      jsToFixed 3 (compareVal (findSymbol (validResults results) "IWM") stock) ∧
    (row.comparisons.vs_IWM.status = .stronger ↔
      1 < compareVal (findSymbol (validResults results) "IWM") stock) := by
  have hmap : (analyzeRows results)[i]? =
      Option.map
        (mkAnalysisRow (findSymbol (validResults results) "QQQ")
          (findSymbol (validResults results) "SPY")
          (findSymbol (validResults results) "IWM"))
        (validResults results)[i]? := by
    unfold analyzeRows
    exact List.getElem?_map _ _ _
  rw [hmap, hs] at hr
  have hrow := Option.some.inj hr
  subst hrow
  refine ⟨rfl, rfl, rfl, ?_, rfl, ?_, rfl, ?_⟩ <;>
    exact mkComparison_status_stronger_iff _ _

/-- Sample fetch outcome: one failed fetch and one successful non-benchmark
symbol. -/
def sampleResults : List (Option StockData) := [none, some sampleStock]

/-- The row the handler emits for `sampleStock` when no benchmark resolved. -/
def sampleRow : Row := mkAnalysisRow none none none sampleStock

/-- Witness for C9 on `sampleResults`. -/
theorem analyzeRows_rounding_witness :
    sampleRow.vlRatio = jsToFixed 3 sampleStock.vlRatio :=
  (analyzeRows_rounding sampleResults 0 sampleStock sampleRow rfl rfl).1

/-! ### Claim C10: a benchmark's self-comparison is neutral -/

/-- Claim C10: whenever a benchmark symbol resolves, its own emitted row
carries a self-comparison with ratio exactly `1` and status `'weaker'`,
whether or not its price change is `0`. -/
theorem benchmark_self_comparison (results : List (Option StockData)) :
    (∀ b : StockData, findSymbol (validResults results) "QQQ" = some b →
      mkAnalysisRow (findSymbol (validResults results) "QQQ")
          (findSymbol (validResults results) "SPY")
          (findSymbol (validResults results) "IWM") b ∈ analyzeRows results ∧
        (mkAnalysisRow (findSymbol (validResults results) "QQQ")
          (findSymbol (validResults results) "SPY")
          (findSymbol (validResults results) "IWM") b).comparisons.vs_QQQ =
          ⟨1, .weaker⟩) ∧
    (∀ b : StockData, findSymbol (validResults results) "SPY" = some b →
      mkAnalysisRow (findSymbol (validResults results) "QQQ")
          (findSymbol (validResults results) "SPY")
          (findSymbol (validResults results) "IWM") b ∈ analyzeRows results ∧
        (mkAnalysisRow (findSymbol (validResults results) "QQQ")
          (findSymbol (validResults results) "SPY")
          (findSymbol (validResults results) "IWM") b).comparisons.vs_SPY =
          ⟨1, .weaker⟩) ∧
    (∀ b : StockData, findSymbol (validResults results) "IWM" = some b →
      mkAnalysisRow (findSymbol (validResults results) "QQQ")
          (findSymbol (validResults results) "SPY")
          (findSymbol (validResults results) "IWM") b ∈ analyzeRows results ∧
        (mkAnalysisRow (findSymbol (validResults results) "QQQ")
          (findSymbol (validResults results) "SPY")
          (findSymbol (validResults results) "IWM") b).comparisons.vs_IWM =
          ⟨1, .weaker⟩) := by
  have hmem : ∀ b : StockData, b ∈ validResults results →
      mkAnalysisRow (findSymbol (validResults results) "QQQ")
        (findSymbol (validResults results) "SPY")
        (findSymbol (validResults results) "IWM") b ∈ analyzeRows results := by
    intro b hb
    unfold analyzeRows
    exact List.mem_map_of_mem _ hb
  have hcomp : ∀ b : StockData,
      mkComparison (some b) b = ⟨1, .weaker⟩ := by
    intro b
    unfold mkComparison
    rw [compareVal_self, jsToFixed_one]
    simp
  refine ⟨?_, ?_, ?_⟩ <;> intro b hfind <;>
    refine ⟨hmem b (List.mem_of_find?_eq_some hfind), ?_⟩ <;>
    show mkComparison _ b = _ <;> rw [hfind] <;> exact hcomp b

/-- Sample fetch outcome where two benchmarks and a stock resolve. -/
def sampleResultsB : List (Option StockData) :=
  [some sampleBench, some sampleBenchUp, none, some sampleStock]

/-- Witness for C10: the resolved `QQQ` row of `sampleResultsB` self-compares
with ratio `1` and status `'weaker'`. -/
theorem benchmark_self_comparison_witness :
    (mkAnalysisRow (findSymbol (validResults sampleResultsB) "QQQ")
      (findSymbol (validResults sampleResultsB) "SPY")
      (findSymbol (validResults sampleResultsB) "IWM")
      sampleBench).comparisons.vs_QQQ = ⟨1, .weaker⟩ :=
  ((benchmark_self_comparison sampleResultsB).1 sampleBench rfl).2

/-! ### Claim C2: what happens when a benchmark fetch fails -/

/-- Against an unresolved benchmark the handler builds the neutral default
comparison `{ ratio: 1, status: 'weaker' }`. -/
theorem mkComparison_none (stock : StockData) :
    mkComparison none stock = ⟨1, .weaker⟩ := by
  unfold mkComparison
  have h : compareVal none stock = 1 := rfl
  rw [h, jsToFixed_one]
  simp

/-- Counterexample to C2 as stated: in `sampleResults` the `QQQ` fetch
failed (no result has symbol `QQQ`), yet the emitted row still carries a
`vs_QQQ` comparison — the substituted default ratio `1` — instead of
omitting it. -/
theorem missing_benchmark_counterexample :
    (analyzeRows sampleResults).map (fun r => r.comparisons.vs_QQQ) =
      [⟨1, .weaker⟩] := by
  have h1 : analyzeRows sampleResults =
      [mkAnalysisRow none none none sampleStock] := rfl
  rw [h1]
  simp only [List.map_cons, List.map_nil]
  show [mkComparison none sampleStock] = [⟨1, .weaker⟩]
  rw [mkComparison_none]

/-- Claim C2 amended: when a benchmark's fetch fails, its comparison is
still present in every symbol's result, with the substituted neutral
default ratio `1` and status `'weaker'`. -/
theorem missing_benchmark_default_comparison (results : List (Option StockData)) :
    (findSymbol (validResults results) "QQQ" = none →
      ∀ row ∈ analyzeRows results, row.comparisons.vs_QQQ = ⟨1, .weaker⟩) ∧
    (findSymbol (validResults results) "SPY" = none →
      ∀ row ∈ analyzeRows results, row.comparisons.vs_SPY = ⟨1, .weaker⟩) ∧
    (findSymbol (validResults results) "IWM" = none →
      ∀ row ∈ analyzeRows results, row.comparisons.vs_IWM = ⟨1, .weaker⟩) := by
  refine ⟨?_, ?_, ?_⟩ <;> intro hnone row hrow <;>
    · unfold analyzeRows at hrow
      rcases List.mem_map.mp hrow with ⟨stock, _, hstock⟩
      rw [← hstock]
      show mkComparison _ stock = _
      rw [hnone]
      exact mkComparison_none stock

/-- Witness for the amended C2 on `sampleResults`, where no fetch returned
a `QQQ` result. -/
theorem missing_benchmark_default_comparison_witness :
    sampleRow.comparisons.vs_QQQ = ⟨1, .weaker⟩ :=
  (missing_benchmark_default_comparison sampleResults).1 rfl sampleRow
    (by rw [show analyzeRows sampleResults = [sampleRow] from rfl]; exact List.mem_singleton.mpr rfl)

/-! ### Claim C3: request validation -/

/-- Counterexample to C3 as stated: the empty `symbols` array passes the
guard `!symbols || !Array.isArray(symbols)` (an array is truthy and is an
array), so no validation error is returned and the three benchmarks are
still fetched. -/
theorem empty_symbols_counterexample :
    analyzePlan (SymbolsField.array []) = some ["QQQ", "SPY", "IWM"] := rfl

/-- Claim C3 amended: a missing or non-array `symbols` field yields the
request-level validation error with no fetch (`none`), while every array —
the empty array included — is accepted and the de-duplicated union of the
benchmarks with the requested symbols is fetched. -/
theorem analyzePlan_validation :
    analyzePlan .missing = none ∧ analyzePlan .nonArray = none ∧
      ∀ xs : List String,
        analyzePlan (.array xs) = some (jsSetDedup (benchmarks ++ xs)) :=
  ⟨rfl, rfl, fun _ => rfl⟩

/-! ### Order properties of the sort comparators -/

theorem skLe_total : ∀ x y : String ⊕ ℚ, skLe x y ∨ skLe y x
  | .inl s, .inl t => le_total s t
  | .inr x, .inr y => le_total x y
  | .inl _, .inr _ => Or.inl trivial
  | .inr _, .inl _ => Or.inr trivial

theorem skLe_trans : ∀ x y z : String ⊕ ℚ, skLe x y → skLe y z → skLe x z
  | .inl _, .inl _, .inl _, h1, h2 => le_trans h1 h2
  | .inl _, .inl _, .inr _, _, _ => trivial
  | .inl _, .inr _, .inl _, _, h2 => h2.elim
  | .inl _, .inr _, .inr _, _, _ => trivial
  | .inr _, .inl _, _, h1, _ => h1.elim
  | .inr _, .inr _, .inl _, _, h2 => h2.elim
  | .inr _, .inr _, .inr _, h1, h2 => le_trans h1 h2

theorem skLe_antisymm : ∀ x y : String ⊕ ℚ, skLe x y → skLe y x → x = y
  | .inl s, .inl t, h1, h2 => by rw [le_antisymm h1 h2]
  | .inr a, .inr b, h1, h2 => by rw [le_antisymm h1 h2]
  | .inl _, .inr _, _, h2 => h2.elim
  | .inr _, .inl _, h1, _ => h1.elim

instance : IsTotal Row benchLe :=
  ⟨fun a b =>
    Int.le_total (jsIndexOf benchmarks a.symbol) (jsIndexOf benchmarks b.symbol)⟩

instance : IsTrans Row benchLe :=
  ⟨fun _ _ _ h1 h2 => le_trans h1 h2⟩

instance (col : Column) (dir : Direction) : IsTotal Row (rowLe col dir) :=
  ⟨fun a b => by
    cases dir
    · exact skLe_total (sortKey col a) (sortKey col b)
    · exact (skLe_total (sortKey col a) (sortKey col b)).symm⟩

instance (col : Column) (dir : Direction) : IsTrans Row (rowLe col dir) :=
  ⟨fun a b c h1 h2 => by
    cases dir
    · exact skLe_trans _ _ _ h1 h2
    · exact skLe_trans _ _ _ h2 h1⟩

/-! ### Claim C4: benchmarks pinned first in fixed order -/

/-- The benchmark rows of the sorted output are exactly the benchmark rows
of the input, ordered by the benchmark comparator; the user's column and
direction do not enter. -/
theorem sortData_filter_bench (data : List Row) (col : Column) (dir : Direction) :
    (sortData data col dir).filter (fun r => isBenchmarkSym r.symbol) =
      List.insertionSort benchLe
        (data.filter (fun r => isBenchmarkSym r.symbol)) := by
  unfold sortData
  rw [List.filter_append]
  have h1 : (List.insertionSort benchLe
      (data.filter (fun r => isBenchmarkSym r.symbol))).filter
        (fun r => isBenchmarkSym r.symbol) =
      List.insertionSort benchLe (data.filter (fun r => isBenchmarkSym r.symbol)) := by
    refine List.filter_eq_self.mpr ?_
    intro a ha
    exact List.of_mem_filter (p := fun r => isBenchmarkSym r.symbol)
      ((List.mem_insertionSort benchLe).mp ha)
  have h2 : (List.insertionSort (rowLe col dir)
      (data.filter (fun r => ! isBenchmarkSym r.symbol))).filter
        (fun r => isBenchmarkSym r.symbol) = [] := by
    refine List.filter_eq_nil_iff.mpr ?_
    intro a ha
    have := List.of_mem_filter (p := fun r => ! isBenchmarkSym r.symbol)
      ((List.mem_insertionSort (rowLe col dir)).mp ha)
    simp only [Bool.not_eq_true'] at this
    simp [this]
  rw [h1, h2, List.append_nil]

/-- The regular rows of the sorted output are exactly the regular rows of
the input, ordered by the column comparator. -/
theorem sortData_filter_regular (data : List Row) (col : Column) (dir : Direction) :
    (sortData data col dir).filter (fun r => ! isBenchmarkSym r.symbol) =
      List.insertionSort (rowLe col dir)
        (data.filter (fun r => ! isBenchmarkSym r.symbol)) := by
  unfold sortData
  rw [List.filter_append]
  have h1 : (List.insertionSort benchLe
      (data.filter (fun r => isBenchmarkSym r.symbol))).filter
        (fun r => ! isBenchmarkSym r.symbol) = [] := by
    refine List.filter_eq_nil_iff.mpr ?_
    intro a ha
    have := List.of_mem_filter (p := fun r => isBenchmarkSym r.symbol)
      ((List.mem_insertionSort benchLe).mp ha)
    simp [this]
  have h2 : (List.insertionSort (rowLe col dir)
      (data.filter (fun r => ! isBenchmarkSym r.symbol))).filter
        (fun r => ! isBenchmarkSym r.symbol) =
      List.insertionSort (rowLe col dir)
        (data.filter (fun r => ! isBenchmarkSym r.symbol)) := by
    refine List.filter_eq_self.mpr ?_
    intro a ha
    exact List.of_mem_filter (p := fun r => ! isBenchmarkSym r.symbol)
      ((List.mem_insertionSort (rowLe col dir)).mp ha)
  rw [h1, h2, List.nil_append]

/-- Claim C4: for every result set, column and direction, the output is the
benchmark rows first — a permutation of the input's benchmark rows ordered
by the fixed `QQQ, SPY, IWM` positions, identical for any other
column/direction choice — followed by the regular rows, a permutation of
the input's regular rows sorted by the chosen comparator. -/
theorem sortData_benchmarks_pinned (data : List Row) (col : Column)
    (dir : Direction) (col2 : Column) (dir2 : Direction) :
    ((sortData data col dir).filter (fun r => isBenchmarkSym r.symbol) =
      (sortData data col2 dir2).filter (fun r => isBenchmarkSym r.symbol)) ∧
    List.Sorted benchLe
      ((sortData data col dir).filter (fun r => isBenchmarkSym r.symbol)) ∧
    ((sortData data col dir).filter (fun r => isBenchmarkSym r.symbol)).Perm
      (data.filter (fun r => isBenchmarkSym r.symbol)) ∧
    (sortData data col dir =
      (sortData data col dir).filter (fun r => isBenchmarkSym r.symbol) ++
        (sortData data col dir).filter (fun r => ! isBenchmarkSym r.symbol)) ∧
    List.Sorted (rowLe col dir)
      ((sortData data col dir).filter (fun r => ! isBenchmarkSym r.symbol)) ∧
    ((sortData data col dir).filter (fun r => ! isBenchmarkSym r.symbol)).Perm
      (data.filter (fun r => ! isBenchmarkSym r.symbol)) := by
  refine ⟨?_, ?_, ?_, ?_, ?_, ?_⟩
  · rw [sortData_filter_bench, sortData_filter_bench]
  · rw [sortData_filter_bench]
    exact List.sorted_insertionSort benchLe _
  · rw [sortData_filter_bench]
    exact List.perm_insertionSort benchLe _
  · rw [sortData_filter_bench, sortData_filter_regular]
    rfl
  · rw [sortData_filter_regular]
    exact List.sorted_insertionSort (rowLe col dir) _
  · rw [sortData_filter_regular]
    exact List.perm_insertionSort (rowLe col dir) _

/-! ### Claim C8: descending is the exact reverse of ascending -/

/-- Claim C8: on regular rows whose keys in the chosen column are pairwise
distinct, the descending sort is exactly the reverse of the ascending
sort. -/
theorem sortData_asc_desc_reverse (data : List Row) (col : Column)
    (hdist : (data.filter (fun r => ! isBenchmarkSym r.symbol)).Pairwise
      (fun a b => sortKey col a ≠ sortKey col b)) :
    (sortData data col .desc).filter (fun r => ! isBenchmarkSym r.symbol) =
      ((sortData data col .asc).filter
        (fun r => ! isBenchmarkSym r.symbol)).reverse := by
  rw [sortData_filter_regular, sortData_filter_regular]
  set l := data.filter (fun r => ! isBenchmarkSym r.symbol) with hl
  set A := List.insertionSort (rowLe col .asc) l with hA
  set D := List.insertionSort (rowLe col .desc) l with hD
  have hne_symm : ∀ {x y : Row},
      sortKey col x ≠ sortKey col y → sortKey col y ≠ sortKey col x :=
    fun h => h.symm
  have hdistA : A.Pairwise (fun a b => sortKey col a ≠ sortKey col b) :=
    ((List.perm_insertionSort (rowLe col .asc) l).pairwise_iff hne_symm).mpr hdist
  have hdistD : D.Pairwise (fun a b => sortKey col a ≠ sortKey col b) :=
    ((List.perm_insertionSort (rowLe col .desc) l).pairwise_iff hne_symm).mpr hdist
  have hsortA : A.Pairwise (rowLe col .asc) :=
    List.sorted_insertionSort (rowLe col .asc) l
  have hsortD : D.Pairwise (rowLe col .desc) :=
    List.sorted_insertionSort (rowLe col .desc) l
  have hperm : D.Perm A.reverse :=
    ((List.perm_insertionSort (rowLe col .desc) l).trans
        (List.perm_insertionSort (rowLe col .asc) l).symm).trans
      (List.reverse_perm A).symm
  have hsD : D.Pairwise
      (fun a b => rowLe col .desc a b ∧ sortKey col a ≠ sortKey col b) :=
    hsortD.and hdistD
  have hsRev : A.reverse.Pairwise
      (fun a b => rowLe col .desc a b ∧ sortKey col a ≠ sortKey col b) := by
    rw [List.pairwise_reverse]
    exact (hsortA.and hdistA).imp fun h => ⟨h.1, h.2.symm⟩
  haveI : IsAntisymm Row
      (fun a b => rowLe col .desc a b ∧ sortKey col a ≠ sortKey col b) :=
    ⟨fun a b h1 h2 =>
      absurd (skLe_antisymm (sortKey col a) (sortKey col b) h2.1 h1.1) h1.2⟩
  exact List.eq_of_perm_of_sorted
    (r := fun a b => rowLe col .desc a b ∧ sortKey col a ≠ sortKey col b)
    hperm hsD hsRev

/-- A comparison set used only to populate sample rows. -/
def sampleComparisons : Comparisons :=
  ⟨⟨1, .weaker⟩, ⟨1, .weaker⟩, ⟨1, .weaker⟩⟩

/-- A sample regular table row. -/
def rowA : Row :=
  { symbol := "AAA", vlRatio := 1, currentVolume := 10, avgVolume := 10,
    price := some 1, priceChange := 1, date := "d",
    comparisons := sampleComparisons }

/-- Another sample regular table row. -/
def rowB : Row :=
  { symbol := "BBB", vlRatio := 2, currentVolume := 20, avgVolume := 20,
    price := some 2, priceChange := 2, date := "d",
    comparisons := sampleComparisons }

/-- A sample benchmark table row. -/
def rowQ : Row :=
  { symbol := "QQQ", vlRatio := 3, currentVolume := 30, avgVolume := 30,
    price := some 3, priceChange := 3, date := "d",
    comparisons := sampleComparisons }

/-- A sample result set, deliberately out of order. -/
def sampleTable : List Row := [rowB, rowQ, rowA]

/-- Witness for C8 on `sampleTable`, sorting by the symbol column. -/
theorem sortData_asc_desc_reverse_witness :
    (sortData sampleTable .symbol .desc).filter
        (fun r => ! isBenchmarkSym r.symbol) =
      ((sortData sampleTable .symbol .asc).filter
        (fun r => ! isBenchmarkSym r.symbol)).reverse :=
  sortData_asc_desc_reverse sampleTable .symbol (by decide)

end StockAnalysis
